import Mathlib

/-!
Shallow embedding of the order-execution and position-reconciliation code of
the backtrader_binance repository (src/backtrader_binance/binance_broker.py,
src/ccxt_store/ccxt_broker.py, src/ccxt_store/ccxt_store.py and the strategy
helper in src/StrategyExamplesBinance/01-LiveTrade-futures.py), together with
the parts of the backtrader library (position.py, order.py) that the broker
code calls into.  Numeric values (Python floats parsed from the exchange's
decimal strings) are modelled as rationals; Python exceptions are modelled
with Option/Except; datetime bookkeeping is reduced to rational timestamps.
-/

namespace BB

/-- Order status constants of backtrader's `Order` class (order.py), as used
by binance_broker.py:  Created, Submitted, Accepted, Partial, Completed,
Canceled, Expired, Margin, Rejected. -/
inductive OrdStatus where
  | Created
  | Submitted
  | Accepted
  | Partial
  | Completed
  | Canceled
  | Expired
  | Margin
  | Rejected
deriving DecidableEq

/-- Order side of a backtrader order (`ordtype`): Buy or Sell. -/
inductive OrdType where
  | Buy
  | Sell
deriving DecidableEq

/-- Execution type of a backtrader order (Order.Market / Limit / Stop /
StopLimit), the keys of BinanceBroker._ORDER_TYPES. -/
inductive ExecType where
  | Market
  | Limit
  | Stop
  | StopLimit
deriving DecidableEq

/-- backtrader Position (backtrader/position.py), the per-symbol ledger
entry: signed size and average entry price.  Only the fields read by
binance_broker.py are modelled. -/
structure Position where
  size : ℚ := 0
  price : ℚ := 0
deriving DecidableEq

/-- Position.__bool__ from backtrader/position.py: a position is truthy iff
its size is nonzero (used by the `if pos:` test in BinanceBroker._submit). -/
def Position.isTruthy (p : Position) : Bool :=
  p.size ≠ 0

/-- Position.clone from backtrader/position.py: a fresh Position object with
the same size and price. -/
def Position.clone (p : Position) : Position :=
  { size := p.size, price := p.price }

/-- Position.update(size, price) from backtrader/position.py, the blend/flip
rule: same-direction fills blend the average price size-weightedly, fills
that reduce exposure leave the price unchanged, a fill that flips the sign
restarts the price at the fill price, and a fill that exactly closes the
position resets the price to 0.  The datetime/upopened/upclosed bookkeeping
and the returned tuple (ignored by all callers in binance_broker.py) are
dropped. -/
def Position.update (p : Position) (size price : ℚ) : Position :=
  let oldsize := p.size
  let newsize := oldsize + size
  if newsize = 0 then
    { size := 0, price := 0 }
  else if oldsize = 0 then
    { size := newsize, price := price }
  else if 0 < oldsize then
    if 0 < size then
      { size := newsize, price := (p.price * oldsize + size * price) / newsize }
    else if 0 < newsize then
      { size := newsize, price := p.price }
    else
      { size := newsize, price := price }
  else
    if size < 0 then
      { size := newsize, price := (p.price * oldsize + size * price) / newsize }
    else if newsize < 0 then
      { size := newsize, price := p.price }
    else
      { size := newsize, price := price }

/-- backtrader OrderData (backtrader/order.py), the `executed` record of an
order: cumulative executed size, volume-weighted average executed price and
the accumulated closed/opened bookkeeping.  The exbits deque is dropped;
only the accumulated fields are kept. -/
structure OrderData where
  dt : Option ℚ := none
  size : ℚ := 0
  price : ℚ := 0
  closed : ℚ := 0
  closedvalue : ℚ := 0
  closedcomm : ℚ := 0
  opened : ℚ := 0
  openedvalue : ℚ := 0
  openedcomm : ℚ := 0
  pnl : ℚ := 0
  psize : ℚ := 0
  pprice : ℚ := 0
  remsize : ℚ := 0
  margin : Option ℚ := none
deriving DecidableEq

/-- OrderData.addbit from backtrader/order.py: appends one execution bit,
decreasing remsize, accumulating size and recomputing price as the
volume-weighted average ((oldsize*oldprice + size*price) / newsize). -/
def OrderData.addbit (d : OrderData) (dt size price closed closedvalue
    closedcomm opened openedvalue openedcomm pnl psize pprice : ℚ) :
    OrderData :=
  { d with
    remsize := d.remsize - size
    dt := some dt
    size := d.size + size
    price := (d.size * d.price + size * price) / (d.size + size)
    closed := d.closed + closed
    closedvalue := d.closedvalue + closedvalue
    closedcomm := d.closedcomm + closedcomm
    opened := d.opened + opened
    openedvalue := d.openedvalue + openedvalue
    openedcomm := d.openedcomm + openedcomm
    pnl := d.pnl + pnl
    psize := psize
    pprice := pprice }

/-- The `executed` attribute of a BinanceOrder.  OrderBase.__init__ sets it
to an OrderData, but BinanceOrder.__init__ (binance_broker.py:33) overwrites
it with the plain number `self.size` when the REST response status is
FILLED, so the attribute is a union of the two. -/
inductive ExecVal where
  | odata (d : OrderData)
  | num (q : ℚ)
deriving DecidableEq

/-- The exchange's order dict (`binance_order`) as consumed by
BinanceOrder.__init__ and BinanceBroker: orderId, symbol, side, origQty,
status, optional price and transactTime.  Decimal strings are modelled as
rationals. -/
structure BinanceOrderDict where
  orderId : Nat
  symbol : String
  side : String
  origQty : ℚ
  status : String
  price : Option ℚ := none
  transactTime : Option ℚ := none
deriving DecidableEq

/-- A backtrader data feed as seen by the broker: its name and the current
bar's close and datetime.  The source distinguishes `data._name` (used as
the submit symbol and the ledger key written by _submit) from
`data._dataname` (the ledger key read by getposition); the Binance feed sets
both to the symbol, so a single field models both. -/
structure DataFeed where
  name : String
  close0 : ℚ := 0
  datetime0 : ℚ := 0
deriving DecidableEq

/-- One entry of the get_my_trades REST response used by
BinanceBroker._submit: executed quantity and price. -/
structure TradeFill where
  qty : ℚ
  price : ℚ
deriving DecidableEq

/-- A BinanceOrder (binance_broker.py:12-50) after construction, restricted
to the attributes the broker reads: the feed, the exectype, the raw exchange
dict, the signed size, the side, the price, the status and the executed
record. -/
structure BtOrder where
  dataFeed : DataFeed
  exectype : ExecType
  binance_order : BinanceOrderDict
  size : ℚ
  ordtype : OrdType
  price : ℚ
  status : OrdStatus
  executed : ExecVal
deriving DecidableEq

/-- BinanceOrder.__init__ (binance_broker.py:13-50).  size is float(origQty);
ordtype is Buy iff side == 'BUY'; OrderBase.__init__ then negates size for
sells and installs a zero OrderData with remsize = size; price is the dict's
price field, defaulting to data.close[0]; the status field of the dict maps
FILLED to Completed (also overwriting executed with the number size), NEW to
Submitted, PARTIALLY_FILLED to Partial, CANCELED/REJECTED/EXPIRED to
Canceled, anything else to Created. -/
def mkBinanceOrder (data : DataFeed) (exectype : ExecType)
    (bo : BinanceOrderDict) : BtOrder :=
  let size0 : ℚ := bo.origQty
  let ordtype := if bo.side = "BUY" then OrdType.Buy else OrdType.Sell
  -- OrderBase.__init__: status Created, sign flip for sells, zero executed
  let size1 := if ordtype = OrdType.Buy then size0 else -size0
  let executed0 : ExecVal := ExecVal.odata { remsize := size1 }
  let price := bo.price.getD data.close0
  let stex : OrdStatus × ExecVal :=
    if bo.status = "FILLED" then (OrdStatus.Completed, ExecVal.num size1)
    else if bo.status = "NEW" then (OrdStatus.Submitted, executed0)
    else if bo.status = "PARTIALLY_FILLED" then (OrdStatus.Partial, executed0)
    else if bo.status = "CANCELED" ∨ bo.status = "REJECTED" ∨
        bo.status = "EXPIRED" then (OrdStatus.Canceled, executed0)
    else (OrdStatus.Created, executed0)
  { dataFeed := data, exectype := exectype, binance_order := bo,
    size := size1, ordtype := ordtype, price := price,
    status := stex.1, executed := stex.2 }

/-- OrderBase.execute (backtrader/order.py) as invoked by
BinanceBroker._execute_order: a zero size is a no-op, otherwise
executed.add(...) appends the bit and executed.margin is set.  When
`executed` has been overwritten with a plain number (FILLED-constructed
orders) the attribute access .add raises — modelled as none. -/
def BtOrder.execute (o : BtOrder) (dt size price closed closedvalue
    closedcomm opened openedvalue openedcomm margin pnl psize pprice : ℚ) :
    Option BtOrder :=
  if size = 0 then some o
  else
    match o.executed with
    | ExecVal.num _ => none
    | ExecVal.odata d =>
      let d1 := d.addbit dt size price closed closedvalue closedcomm opened
        openedvalue openedcomm pnl psize pprice
      some { o with executed := ExecVal.odata { d1 with margin := some margin } }

/-- math.copysign(x, s) over rationals: the magnitude of x with the sign of
s.  Python's 0.0 carries a positive sign bit, so s = 0 yields |x|. -/
def copysign (x s : ℚ) : ℚ :=
  if s < 0 then -|x| else |x|

/-- BinanceBroker._set_order_status (binance_broker.py:119-129): maps the
stream status string onto the order's backtrader status via
cancel/expire/completed/partial/reject; unknown strings leave the order
unchanged.  Order.expire() refuses to act on Market-exectype orders (it
returns False and leaves the status unchanged), so the EXPIRED branch only
marks non-Market orders.  (binance.enums constants are inlined as their
string values; the executed.dt touch of Order.cancel is timestamp
bookkeeping and is elided.) -/
def set_order_status (o : BtOrder) (st : String) : BtOrder :=
  if st = "CANCELED" then { o with status := OrdStatus.Canceled }
  else if st = "EXPIRED" then
    if o.exectype = ExecType.Market then o
    else { o with status := OrdStatus.Expired }
  else if st = "FILLED" then { o with status := OrdStatus.Completed }
  else if st = "PARTIALLY_FILLED" then { o with status := OrdStatus.Partial }
  else if st = "REJECTED" then { o with status := OrdStatus.Rejected }
  else o

/-- Lookup in the positions dict (insertion-ordered association list with
unique keys, as a Python dict). -/
def posLookup (ps : List (String × Position)) (k : String) : Option Position :=
  (ps.find? (fun pr => pr.1 = k)).map (fun pr => pr.2)

/-- Assignment positions[k] = v in the positions dict: replaces the existing
binding or appends a new one. -/
def posSet : List (String × Position) → String → Position →
    List (String × Position)
  | [], k, v => [(k, v)]
  | (k1, v1) :: rest, k, v =>
    if k1 = k then (k, v) :: rest else (k1, v1) :: posSet rest k v

/-- The defaultdict(Position) access self.positions[key] performed by
BinanceBroker.getposition: returns the stored Position, inserting and
returning a fresh default Position when the key is absent.  The Bool clone
flag of getposition selects between the stored object and a copy; in this
pure value model the flag shows up at the call sites — clone=False callers
write the updated value back, clone=True callers discard it. -/
def getposition (ps : List (String × Position)) (k : String) :
    List (String × Position) × Position :=
  match posLookup ps k with
  | some p => (ps, p)
  | none => (ps ++ [(k, {})], {})

/-- The broker's mutable state as initialized by BinanceBroker.__init__
(binance_broker.py:61-73): the notification deque, the positions
defaultdict, and the open_orders list scanned by the stream handler.  There
is NO `orders` attribute: neither __init__ nor backtrader's BrokerBase
creates one, so the `self.orders.append(order)` at binance_broker.py:156
raises AttributeError (see submit). -/
structure BrokerState where
  notifs : List BtOrder := []
  positions : List (String × Position) := []
  open_orders : List BtOrder := []
deriving DecidableEq

/-- BinanceBroker._execute_order (binance_broker.py:79-89): order.execute
with the fill data (closed = 0, closedvalue = executed_value, closedcomm =
executed_comm, remaining slots 0), then pos = getposition(order.data,
clone=False) and pos.update(copysign(executed_size, order.size),
executed_price) written back to the ledger. -/
def execute_order (st : BrokerState) (o : BtOrder)
    (date executed_size executed_price executed_value executed_comm : ℚ) :
    Option (BrokerState × BtOrder) :=
  match o.execute date executed_size executed_price 0 executed_value
      executed_comm 0 0 0 0 0 0 0 with
  | none => none
  | some o1 =>
    let pr := getposition st.positions o.dataFeed.name
    let pos1 := pr.2.update (copysign executed_size o.size) executed_price
    some ({ st with positions := posSet pr.1 o.dataFeed.name pos1 }, o1)

/-- One decoded executionReport stream message (the msg dict of
_handle_user_socket_message): event type e, symbol s, exchange order id i,
order status X, last-filled quantity l, last-filled price L, cumulative
quote value Z, commission n, transaction time T. -/
structure ExecMsg where
  e : String
  s : String
  i : Nat
  X : String
  l : ℚ := 0
  L : ℚ := 0
  Z : ℚ := 0
  n : ℚ := 0
  T : ℚ := 0
deriving DecidableEq

/-- Processing of one matched open order inside the stream handler loop
(binance_broker.py:103-111): on FILLED or PARTIALLY_FILLED run
_execute_order with _dt = T/1000 (datetime.fromtimestamp of the millisecond
stamp) and the msg's l/L/Z/n fields, then _set_order_status with X. -/
def processOrder (msg : ExecMsg) (st : BrokerState) (o : BtOrder) :
    Option (BrokerState × BtOrder) :=
  let step : Option (BrokerState × BtOrder) :=
    if msg.X = "FILLED" ∨ msg.X = "PARTIALLY_FILLED" then
      execute_order st o (msg.T / 1000) msg.l msg.L msg.Z msg.n
    else some (st, o)
  match step with
  | none => none
  | some (st1, o1) => some (st1, set_order_status o1 msg.X)

/-- The `for o in self.open_orders:` loop of _handle_user_socket_message
(binance_broker.py:101-115) with CPython list semantics: done holds the
already-visited prefix, rem the not-yet-visited suffix.  A matched order is
processed; if its resulting status is outside {Accepted, Partial} it is
removed (open_orders.remove(o)), which shifts the next element into the
current index so the iterator skips it; in either case the (mutated) order
is appended to the notification deque. -/
def socket_loop (msg : ExecMsg) : BrokerState → List BtOrder →
    List BtOrder → Option BrokerState
  | st, done, [] => some { st with open_orders := done }
  | st, done, o :: rest =>
    if o.binance_order.orderId = msg.i then
      match processOrder msg st o with
      | none => none
      | some (st1, o2) =>
        let keep := o2.status = OrdStatus.Accepted ∨
          o2.status = OrdStatus.Partial
        let st2 := { st1 with notifs := st1.notifs ++ [o2] }
        if keep then
          socket_loop msg st2 (done ++ [o2]) rest
        else
          match rest with
          | [] => socket_loop msg st2 done []
          | skip :: rest2 => socket_loop msg st2 (done ++ [skip]) rest2
    else socket_loop msg st (done ++ [o]) rest

/-- BinanceBroker._handle_user_socket_message (binance_broker.py:91-117):
executionReport messages for a symbol of the store are run through the
open_orders loop; an 'error' event raises (none); everything else is
ignored. -/
def handle_user_socket_message (symbols : List String) (st : BrokerState)
    (msg : ExecMsg) : Option BrokerState :=
  if msg.e = "executionReport" then
    if symbols.contains msg.s then socket_loop msg st [] st.open_orders
    else some st
  else if msg.e = "error" then none
  else some st

/-- The `if order.status == Order.Completed:` tail of BinanceBroker._submit
(binance_broker.py:158-163): pos = self.getposition(data) returns a CLONE
of the ledger entry (clone defaults to True), so the truthy branch's
pos.update(order.size, order.price) mutates the clone and is discarded —
only the defaultdict insertion performed by the access survives; the else
branch (flat position) writes the dict directly via
self.positions[data._name] = Position(order.size, order.price).  In the
program this tail is unreachable — the append at line 156 raises first
(see submit) — and is embedded here to analyse the written code. -/
def submit_completed_update (st1 : BrokerState) (data : DataFeed)
    (order : BtOrder) : BrokerState :=
  if order.status = OrdStatus.Completed then
    let pr := getposition st1.positions data.name
    if (pr.2.clone).isTruthy then
      -- pos.update(order.size, order.price) mutates the clone only;
      -- the ledger keeps the value it had (plus the defaultdict insert)
      { st1 with positions := pr.1 }
    else
      let newpos : Position := { size := order.size, price := order.price }
      { st1 with positions := posSet pr.1 data.name newpos }
  else st1

/-- The order-construction prefix of BinanceBroker._submit
(binance_broker.py:131-153): BinanceOrder is built from the REST response
`bo` of store.create_order, and for an instantly FILLED market order the
order price is replaced by the volume-weighted average of the fetched
get_my_trades entries (falling back to the submit price parameter if their
total quantity is not positive — the source passes the raw `price` argument
there — and to data.close[0] on an exception).  This is the code that runs
before the failing append at line 156. -/
def submitOrder (data : DataFeed) (exectype : ExecType) (price : ℚ)
    (bo : BinanceOrderDict) (trades : Except Unit (List TradeFill)) :
    BtOrder :=
  let otype := if exectype = ExecType.Market then "MARKET" else "LIMIT"
  let order0 := mkBinanceOrder data exectype bo
  if otype = "MARKET" ∧ bo.status = "FILLED" then
    match trades with
    | Except.error _ => { order0 with price := data.close0 }
    | Except.ok ts =>
      if ts ≠ [] then
        let total_qty := (ts.map (fun t => t.qty)).sum
        let total_price := (ts.map (fun t => t.price * t.qty)).sum
        let avg := if 0 < total_qty then total_price / total_qty else price
        { order0 with price := avg }
      else order0
  else order0

/-- BinanceBroker._submit (binance_broker.py:131-165).  After the
order-construction prefix (submitOrder), line 156 executes
`self.orders.append(order)` — but no `orders` attribute exists on the
broker (BinanceBroker.__init__ at lines 61-73 creates only notifs,
positions and open_orders, and backtrader's BrokerBase provides none), so
the attribute access raises AttributeError on every call: the exception
propagates to the caller (modelled as the `none` component), the
constructed order is discarded, and the broker state — open_orders and the
position ledger included — is unchanged.  The Completed tail at lines
158-163 (submit_completed_update) is unreachable. -/
def submit (st : BrokerState) (data : DataFeed) (side : String)
    (exectype : ExecType) (size price : ℚ) (bo : BinanceOrderDict)
    (trades : Except Unit (List TradeFill)) : BrokerState × Option BtOrder :=
  let _order := submitOrder data exectype price bo trades
  -- self.orders.append(order): AttributeError — the exception propagates
  (st, none)

/-- BinanceBroker.buy (binance_broker.py:167-171): _submit with SIDE_BUY. -/
def buy (st : BrokerState) (data : DataFeed) (exectype : ExecType)
    (size price : ℚ) (bo : BinanceOrderDict)
    (trades : Except Unit (List TradeFill)) : BrokerState × Option BtOrder :=
  submit st data "BUY" exectype size price bo trades

/-- BinanceBroker.sell (binance_broker.py:207-211): _submit with SIDE_SELL. -/
def sell (st : BrokerState) (data : DataFeed) (exectype : ExecType)
    (size price : ℚ) (bo : BinanceOrderDict)
    (trades : Except Unit (List TradeFill)) : BrokerState × Option BtOrder :=
  submit st data "SELL" exectype size price bo trades

/-- Modelled from the spec: insertion of a submitted order into the active
open-order registry ("creates an Order Registry entry in `Submitted`",
§4.4).  No statement of binance_broker.py inserts into self.open_orders, so
the registration step that the spec's race scenario presupposes is modelled
here as the plain list append that `self.open_orders.append(order)` would
perform. -/
def registerOpenOrder (st : BrokerState) (o : BtOrder) : BrokerState :=
  { st with open_orders := st.open_orders ++ [o] }

/-- Outcome of the exchange's cancel-order REST endpoint as seen by the
store: success, the rejection issued when the order is already in a
terminal state (Binance error -2011, unknown/already-final order), or any
other error. -/
inductive CancelResp where
  | ok
  | alreadyTerminal
  | otherErr (e : String)
deriving DecidableEq

/-- Modelled from the spec: BinanceStore.cancel_order (binance_store.py is
not under src/; only its caller BinanceBroker.cancel is).  Per spec §4.3,
"Cancel requests on an order already in a terminal state are a no-op
success, not an error": the store issues the REST cancel and swallows the
exchange's already-terminal rejection, propagating other errors. -/
def store_cancel_order (resp : CancelResp) : Except String Unit :=
  match resp with
  | CancelResp.ok => Except.ok ()
  | CancelResp.alreadyTerminal => Except.ok ()
  | CancelResp.otherErr e => Except.error e

/-- BinanceBroker.cancel (binance_broker.py:173-176): reads orderId and
symbol from the order's binance_order dict and delegates to
store.cancel_order; it touches no local broker state. -/
def cancel (st : BrokerState) (o : BtOrder) (resp : CancelResp) :
    BrokerState × Except String Unit :=
  (st, store_cancel_order resp)

/-- One fill delivered to an order: the arguments
(date, executed_size, executed_price, executed_value, executed_comm) that
the stream handler passes to BinanceBroker._execute_order. -/
structure Fill where
  dt : ℚ := 0
  qty : ℚ
  price : ℚ
  value : ℚ := 0
  comm : ℚ := 0
deriving DecidableEq

/-- Sequential application of fills to one order through the same
order.execute call that BinanceBroker._execute_order performs
(binance_broker.py:80-87): closed = 0, closedvalue = value,
closedcomm = comm, the remaining slots zero. -/
def applyFills (o : BtOrder) : List Fill → Option BtOrder
  | [] => some o
  | f :: fs =>
    match o.execute f.dt f.qty f.price 0 f.value f.comm 0 0 0 0 0 0 0 with
    | none => none
    | some o1 => applyFills o1 fs

/-- Projection of an order's executed record onto (cumulative size,
volume-weighted average price); none when executed has been overwritten
with a plain number. -/
def ExecVal.sizePrice : ExecVal → Option (ℚ × ℚ)
  | ExecVal.odata d => some (d.size, d.price)
  | ExecVal.num _ => none

end BB

namespace CCXT

/-- Whether the pattern occurs as a substring, modelling Python's
`pat in s` on strings (used for the '"code":-4046' check in
ccxt_broker.py:77). -/
def containsSubstr (s pat : String) : Bool :=
  decide (pat.toList <:+: s.toList)

/-- A stored order record of CCXTBroker (the self.orders dict values):
its status string and the appended status updates (timestamps elided). -/
structure OrderRec where
  status : String
  updates : List String := []
deriving DecidableEq

/-- CCXTBroker's local order-tracking state: the orders dict and the
_pending_orders list (ccxt_broker.py:43-45). -/
structure BrokerState where
  orders : List (String × OrderRec) := []
  pending : List String := []
deriving DecidableEq

/-- Assignment into the orders dict of CCXTBroker. -/
def ordSet : List (String × OrderRec) → String → OrderRec →
    List (String × OrderRec)
  | [], k, v => [(k, v)]
  | (k1, v1) :: rest, k, v =>
    if k1 = k then (k, v) :: rest else (k1, v1) :: ordSet rest k v

/-- Lookup in the orders dict of CCXTBroker. -/
def ordLookup (os : List (String × OrderRec)) (k : String) : Option OrderRec :=
  (os.find? (fun pr => pr.1 = k)).map (fun pr => pr.2)

/-- CCXTBroker.cancel_order (ccxt_broker.py:127-147): performs the single
exchange.cancel_order call (response given as environment input); on
success it marks a locally known order CANCELED, appends a status update,
drops the id from _pending_orders and returns the exchange result; any
exception is logged and RE-RAISED (returned as error). -/
def cancel_order (st : BrokerState) (order_id : String)
    (resp : Except String String) : Except String (BrokerState × String) :=
  match resp with
  | Except.error e => Except.error e
  | Except.ok result =>
    let st1 :=
      match ordLookup st.orders order_id with
      | some rec =>
        let rec1 : OrderRec :=
          { status := "canceled", updates := rec.updates ++ ["canceled"] }
        { st with orders := ordSet st.orders order_id rec1 }
      | none => st
    let st2 := { st1 with pending := st1.pending.filter (fun x => x ≠ order_id) }
    Except.ok (st2, result)

/-- CCXTBroker.create_order (ccxt_broker.py:91-125): validates the side
string (raising ValueError before any exchange call otherwise) and then
performs exactly ONE exchange.fapiPrivatePostOrder call — there is no retry
loop.  `env k` is the response the exchange would give to the k-th attempt;
the returned Nat counts the attempts actually made. -/
def create_order (side : String) (env : Nat → Except String String) :
    Except String String × Nat :=
  if side = "BUY" ∨ side = "SELL" then (env 0, 1)
  else (Except.error "Invalid side value", 0)

/-- The margin-mode step of CCXTBroker._initialize_trading_settings
(ccxt_broker.py:70-80): the fapiPrivatePostMarginType call is wrapped in a
try/except; an exception whose text contains '"code":-4046' (no change
needed) is swallowed as success, any other exception is re-raised. -/
def setMarginType (resp : Except String Unit) : Except String Unit :=
  match resp with
  | Except.ok _ => Except.ok ()
  | Except.error msg =>
    if containsSubstr msg "\"code\":-4046" then Except.ok ()
    else Except.error msg

/-- Modelled from the spec: the exchange's margin-type endpoint (spec §6
"set margin mode (symbol, mode ∈ \x7bcross, isolated\x7d) idempotent" and
§4.2 "an exchange response indicating no change needed").  It applies the
requested mode; when the account is already in the requested mode it
responds with the Binance error whose payload contains "code":-4046.
Returns the new mode and the response. -/
def exchangeMarginType (current requested : String) :
    String × Except String Unit :=
  if current = requested then
    (current, Except.error "\"code\":-4046,\"msg\":\"No need to change margin type.\"")
  else (requested, Except.ok ())

/-- Two successive margin-mode initializations against the modelled
exchange: the result of the classification of each call's response,
threading the exchange's mode state. -/
def setMarginModeTwice (initial mode : String) :
    Except String Unit × Except String Unit :=
  let r1 := exchangeMarginType initial mode
  let c1 := setMarginType r1.2
  let r2 := exchangeMarginType r1.1 mode
  (c1, setMarginType r2.2)

/-- One asset entry of the futures account response
(exchange.fapiPrivateV2GetAccount): asset name and availableBalance. -/
structure AssetRec where
  asset : String
  availableBalance : ℚ
deriving DecidableEq

/-- The futures account response: its assets list. -/
structure AccountResp where
  assets : List AssetRec
deriving DecidableEq

/-- CCXTBroker.get_available_balance (ccxt_broker.py:240-255): the whole
body is wrapped in try/except, and the except branch returns 0.0 — so the
function never raises, which the plain (non-Except) return type records.
For default_type 'future' it returns the availableBalance of the USDT asset
(0.0 when absent); for any other default_type the body falls through and
Python returns None, modelled as the none case of the Option. -/
def get_available_balance (default_type : String)
    (resp : Except String AccountResp) : Option ℚ :=
  if default_type = "future" then
    match resp with
    | Except.error _ => some 0
    | Except.ok account =>
      match account.assets.find? (fun a => a.asset = "USDT") with
      | some a => some a.availableBalance
      | none => some 0
  else none

/-- CCXTBroker.transfer_to_isolated_margin (ccxt_broker.py:272-286): the
fapiPrivatePostPositionMargin call is wrapped in try/except; success yields
True, any exception is logged and yields False — the function never
raises. -/
def transfer_to_isolated_margin (resp : Except String Unit) : Bool :=
  match resp with
  | Except.ok _ => true
  | Except.error _ => false

/-- One record of the fapiPrivateV2GetPositionRisk response: symbol,
position amount, unrealized profit, isolated wallet. -/
structure PosRec where
  symbol : String
  positionAmt : ℚ := 0
  unRealizedProfit : ℚ := 0
  isolatedWallet : ℚ := 0
deriving DecidableEq

/-- CCXTBroker.get_order (ccxt_broker.py:149-166): a single
exchange.fetch_order call whose payload (kept opaque here — the mirroring
of it into the local orders dict is bookkeeping with no bearing on the
call policy) is returned on success; any exception is logged and
RE-RAISED.  There is no retry around the call. -/
def get_order (resp : Except String String) : Except String String :=
  match resp with
  | Except.error e => Except.error e
  | Except.ok order => Except.ok order

/-- CCXTBroker.get_position (ccxt_broker.py:168-185): for default_type
'future', a single fapiPrivateV2GetPositionRisk call, selecting the record
whose symbol equals the slash-stripped symbol (the positions-cache write on
success is bookkeeping and elided); any exception is logged and RE-RAISED —
no retry.  For other default types the body falls through and returns
None. -/
def get_position (default_type : String) (symbol : String)
    (resp : Except String (List PosRec)) :
    Except String (Option PosRec) :=
  if default_type = "future" then
    match resp with
    | Except.error e => Except.error e
    | Except.ok ps =>
      Except.ok (ps.find? (fun p => p.symbol = symbol.replace "/" ""))
  else Except.ok none

/-- CCXTBroker.get_account_balance (ccxt_broker.py:187-196): one REST call —
fapiPrivateV2GetAccount when default_type is 'future', fetch_balance
otherwise; any exception is logged and RE-RAISED — no retry. -/
def get_account_balance (default_type : String)
    (fapiResp spotResp : Except String AccountResp) :
    Except String AccountResp :=
  if default_type = "future" then fapiResp else spotResp

/-- The leverage step of CCXTBroker._initialize_trading_settings
(ccxt_broker.py:63-67): a single fapiPrivatePostLeverage call with no
classification of its own — an exception propagates to the per-symbol
handler (lines 83-85), which logs and re-raises it.  No retry. -/
def setLeverage (resp : Except String Unit) : Except String Unit :=
  resp

end CCXT

namespace Strat

/-- JustBuySellStrategy.get_position_info
(01-LiveTrade-futures.py:188-200), the only retry loop in the sources:
max_retries = 3 attempts with retry_delay = 2 seconds of time.sleep between
failed attempts; the last attempt re-raises its exception.  `env k` is the
exchange's response to the k-th attempt; the result carries the number of
attempts made and the list of sleep durations performed.  All exceptions
are retried alike (no transient/permanent classification). -/
def get_position_info (env : Nat → Except String (List CCXT.PosRec))
    (ticker : String) :
    Except String (Option CCXT.PosRec) × Nat × List ℚ :=
  let target := ticker.replace "/" ""
  let found := fun ps : List CCXT.PosRec =>
    ps.find? (fun p => p.symbol = target)
  match env 0 with
  | Except.ok ps => (Except.ok (found ps), 1, [])
  | Except.error _ =>
    match env 1 with
    | Except.ok ps => (Except.ok (found ps), 2, [2])
    | Except.error _ =>
      match env 2 with
      | Except.ok ps => (Except.ok (found ps), 3, [2, 2])
      | Except.error e => (Except.error e, 3, [2, 2])

end Strat

namespace Alias

/-!
An object-identity model of BinanceBroker.getposition and _execute_order,
making the Python aliasing explicit: Position objects live in a heap of
cells addressed by references, and the broker's positions defaultdict maps
symbols to references.  Mutating methods (Position.update) write through a
reference; Position.clone allocates a fresh cell.
-/

/-- The heap of Position objects: cell r holds the r-th entry. -/
structure Heap where
  cells : List BB.Position
deriving DecidableEq

/-- Dereference: the object a reference points to (a default Position for a
dangling reference, which well-formed states exclude). -/
def Heap.read (h : Heap) (r : Nat) : BB.Position :=
  h.cells.getD r {}

/-- In-place mutation of the object a reference points to. -/
def Heap.write (h : Heap) (r : Nat) (p : BB.Position) : Heap :=
  ⟨h.cells.set r p⟩

/-- Allocation of a fresh object; returns the new heap and the reference. -/
def Heap.alloc (h : Heap) (p : BB.Position) : Heap × Nat :=
  (⟨h.cells ++ [p]⟩, h.cells.length)

/-- The broker's position state in the identity model: the heap and the
defaultdict(Position) mapping symbols to object references
(binance_broker.py:65). -/
structure St where
  heap : Heap
  posmap : List (String × Nat)
deriving DecidableEq

/-- Well-formedness: every reference stored in the positions dict points
into the heap. -/
def Wf (s : St) : Prop :=
  ∀ pr ∈ s.posmap, pr.2 < s.heap.cells.length

/-- The defaultdict access self.positions[data._dataname]: the stored
reference, or a freshly allocated default Position for an absent key. -/
def access (s : St) (k : String) : St × Nat :=
  match (s.posmap.find? (fun pr => pr.1 = k)).map (fun pr => pr.2) with
  | some r => (s, r)
  | none =>
    let al := s.heap.alloc {}
    ({ heap := al.1, posmap := s.posmap ++ [(k, al.2)] }, al.2)

/-- BinanceBroker.getposition (binance_broker.py:194-198) in the identity
model: the defaultdict access, then — when clone is true, which is the
default — pos.clone() allocates a fresh copy and the copy's reference is
returned; with clone=False the stored object itself is returned. -/
def getposition (s : St) (k : String) (clone : Bool) : St × Nat :=
  let ar := access s k
  if clone then
    let p := ar.1.heap.read ar.2
    let al := ar.1.heap.alloc p.clone
    ({ ar.1 with heap := al.1 }, al.2)
  else ar

/-- pos.update(size, price) called on the object behind reference r: an
in-place mutation of that object. -/
def updateRef (s : St) (r : Nat) (size price : ℚ) : St :=
  { s with heap := s.heap.write r ((s.heap.read r).update size price) }

/-- The ledger's current value for a symbol: the object stored in the
positions dict, if the symbol is present. -/
def ledger (s : St) (k : String) : Option BB.Position :=
  ((s.posmap.find? (fun pr => pr.1 = k)).map (fun pr => pr.2)).map
    (fun r => s.heap.read r)

/-- The position effect of BinanceBroker._execute_order
(binance_broker.py:88-89) in the identity model: getposition with
clone=False, then Position.update through the returned (stored, un-cloned)
reference. -/
def execute_order_pos (s : St) (k : String) (signedQty price : ℚ) : St :=
  let gr := getposition s k false
  updateRef gr.1 gr.2 signedQty price

end Alias

/-! Concrete instances used by witnesses and counterexamples. -/

/-- A Binance data feed for ETHUSDT with current close 1995. -/
def exData : BB.DataFeed := { name := "ETHUSDT", close0 := 1995, datetime0 := 0 }

/-- REST response for a resting limit order: status NEW, BUY 0.01. -/
def exBoNEW : BB.BinanceOrderDict :=
  { orderId := 111, symbol := "ETHUSDT", side := "BUY", origQty := 1/100,
    status := "NEW", price := some 1900 }

/-- REST response for an instantly filled market order: status FILLED,
BUY 0.01 (the market-order response carries price 0). -/
def exBoFILLED : BB.BinanceOrderDict :=
  { orderId := 222, symbol := "ETHUSDT", side := "BUY", origQty := 1/100,
    status := "FILLED", price := some 0 }

/-- The BinanceOrder built from the NEW response (status Submitted). -/
def exOrderNEW : BB.BtOrder := BB.mkBinanceOrder exData BB.ExecType.Limit exBoNEW

/-- Exchange environment for CCXT.create_order that fails transiently on
the first attempt and would succeed on any later one. -/
def envOrder : Nat → Except String String :=
  fun k => if k = 0 then Except.error "request timeout" else Except.ok "orderId 1"

/-- A position-risk record for ETHUSDT. -/
def exPosRec : CCXT.PosRec := { symbol := "ETHUSDT", positionAmt := 1 }

/-- Exchange environment for Strat.get_position_info that fails transiently
on the first attempt and succeeds on any later one. -/
def envPos : Nat → Except String (List CCXT.PosRec) :=
  fun k => if k = 0 then Except.error "request timeout" else Except.ok [exPosRec]

/-- Stream execution report with status NEW for order 111. -/
def exMsgNEW : BB.ExecMsg :=
  { e := "executionReport", s := "ETHUSDT", i := 111, X := "NEW", T := 1000 }

/-- Stream execution report: order 111 fully filled, 0.01 at 2000. -/
def exMsgFill : BB.ExecMsg :=
  { e := "executionReport", s := "ETHUSDT", i := 111, X := "FILLED",
    l := 1/100, L := 2000, Z := 20, T := 1000 }

/-- Stream report: first partial fill of order 111, 0.003 at 2000. -/
def exMsgPF1 : BB.ExecMsg :=
  { e := "executionReport", s := "ETHUSDT", i := 111, X := "PARTIALLY_FILLED",
    l := 3/1000, L := 2000, Z := 6, T := 1000 }

/-- Stream report: second partial fill of order 111, 0.007 at 2010. -/
def exMsgPF2 : BB.ExecMsg :=
  { e := "executionReport", s := "ETHUSDT", i := 111, X := "PARTIALLY_FILLED",
    l := 7/1000, L := 2010, Z := 2007/100, T := 2000 }

/-- Stream report: final FILLED status for order 111 with no additional
last-filled quantity. -/
def exMsgF3 : BB.ExecMsg :=
  { e := "executionReport", s := "ETHUSDT", i := 111, X := "FILLED",
    l := 0, L := 0, Z := 2007/100, T := 3000 }

/-- The stream-handler run for the partial-fill scenario: order 111 open,
then the two partial-fill reports and the final FILLED report in order. -/
def exChain : Option BB.BrokerState :=
  ((BB.handle_user_socket_message ["ETHUSDT"] { open_orders := [exOrderNEW] }
      exMsgPF1).bind
    (fun s => BB.handle_user_socket_message ["ETHUSDT"] s exMsgPF2)).bind
    (fun s => BB.handle_user_socket_message ["ETHUSDT"] s exMsgF3)

/-- The partial-fill scenario as a plain fill list: 0.003 at 2000 then
0.007 at 2010. -/
def exFills : List BB.Fill :=
  [{ dt := 1, qty := 3/1000, price := 2000, value := 6, comm := 0 },
   { dt := 2, qty := 7/1000, price := 2010, value := 2007/100, comm := 0 }]

/-- The broker state holding a pre-existing long position of 0.05 ETHUSDT
at average entry 1000. -/
def exStPrior : BB.BrokerState :=
  { positions := [("ETHUSDT", { size := 5/100, price := 1000 })] }

/-- The get_my_trades response for the instantly filled market buy: one
trade of 0.01 at 2000. -/
def exTrades : List BB.TradeFill := [{ qty := 1/100, price := 2000 }]

/-- An aliasing-model state with one allocated Position object of 0.05 at
1000 registered in the ledger under ETHUSDT. -/
def exAliasSt : Alias.St :=
  { heap := ⟨[{ size := 5/100, price := 1000 }]⟩,
    posmap := [("ETHUSDT", 0)] }

/-! C1 -/

/-- Claim C1, code-bug exhibit.  Every _submit call raises AttributeError
at `self.orders.append(order)` (binance_broker.py:156) because no `orders`
attribute is ever created, so submit returns no order and leaves the
broker state — open_orders included — unchanged: no order ever enters the
active registry, and the claimed membership-until-terminal discipline
cannot hold (first two conjuncts: the general fact and its evaluation at
the concrete NEW limit buy).  Independently, the registry scan keeps only
orders whose status after the report is Accepted or Partial
(binance_broker.py:113), so even an order placed into open_orders by hand
is removed by a NEW report that leaves it in the non-terminal Submitted
status (last two conjuncts), contradicting the claim that non-terminal
reports never remove. -/
theorem submit_raises_attribute_error :
    (∀ (st : BB.BrokerState) (data : BB.DataFeed) (side : String)
      (et : BB.ExecType) (size price : ℚ) (bo : BB.BinanceOrderDict)
      (trades : Except Unit (List BB.TradeFill)),
      BB.submit st data side et size price bo trades = (st, none)) ∧
    BB.submit {} exData "BUY" BB.ExecType.Limit (1/100) 1900 exBoNEW
      (Except.ok []) = ({}, none) ∧
    exOrderNEW.status = BB.OrdStatus.Submitted ∧
    (BB.handle_user_socket_message ["ETHUSDT"]
      { open_orders := [exOrderNEW] } exMsgNEW).map
        BB.BrokerState.open_orders = some [] := by
  refine ⟨fun st data side et size price bo trades => rfl, rfl, rfl, ?_⟩
  decide

/-! C7 -/

/-- Helper: the open-orders loop is the identity (apart from reassembling
the list) when no element matches the message's order id. -/
theorem socket_loop_no_match (msg : BB.ExecMsg) :
    ∀ (rem : List BB.BtOrder) (st : BB.BrokerState) (done : List BB.BtOrder),
    (∀ o ∈ rem, o.binance_order.orderId ≠ msg.i) →
    BB.socket_loop msg st done rem =
      some { st with open_orders := done ++ rem } := by
  intro rem
  induction rem with
  | nil => intro st done h; simp [BB.socket_loop]
  | cons o rest ih =>
    intro st done h
    unfold BB.socket_loop
    rw [if_neg (h o (by simp))]
    rw [ih st (done ++ [o]) (fun x hx => h x (by simp [hx]))]
    simp


/-- Claim C7 as amended: there is no buffering — a fill event whose
exchange order id matches no order in open_orders leaves the broker state
completely unchanged (the fill is silently discarded), so the
fill-before-registration ordering loses the fill instead of replaying it
after registration. -/
theorem unknown_order_fill_dropped (symbols : List String)
    (st : BB.BrokerState) (msg : BB.ExecMsg)
    (he : msg.e = "executionReport")
    (h : ∀ o ∈ st.open_orders, o.binance_order.orderId ≠ msg.i) :
    BB.handle_user_socket_message symbols st msg = some st := by
  unfold BB.handle_user_socket_message
  rw [he]
  simp only [if_pos rfl, if_true]
  by_cases hc : symbols.contains msg.s
  · rw [if_pos hc, socket_loop_no_match msg st.open_orders st [] h]
    simp
  · rw [if_neg hc]

/-- Witness for the C7 amended theorem: the fill report for order 111
against a broker with empty open_orders is dropped without any state
change. -/
theorem unknown_order_fill_dropped_witness :
    BB.handle_user_socket_message ["ETHUSDT"] {} exMsgFill = some {} :=
  unknown_order_fill_dropped ["ETHUSDT"] {} exMsgFill rfl
    (by intro o ho; simp at ho)

/-- Claim C7 counterexample: the two event orderings do NOT commute.  A
fill for order 111 arriving before the order is registered is dropped
(state unchanged), so registering afterwards yields a state with an
unfilled order — different from the state produced when registration
precedes the fill (where the order is executed 0.01 at 2000, completed,
removed from open_orders and the ledger updated). -/
theorem fill_before_registration_counterexample :
    BB.handle_user_socket_message ["ETHUSDT"] {} exMsgFill = some {} ∧
    (BB.handle_user_socket_message ["ETHUSDT"] {} exMsgFill).map
        (fun s => BB.registerOpenOrder s exOrderNEW) ≠
      BB.handle_user_socket_message ["ETHUSDT"]
        (BB.registerOpenOrder {} exOrderNEW) exMsgFill := by
  have hA : BB.handle_user_socket_message ["ETHUSDT"] {} exMsgFill =
      some {} := rfl
  refine ⟨hA, ?_⟩
  intro h
  have h2 := congrArg (Option.map (fun s => s.open_orders.length)) h
  rw [hA] at h2
  simp [BB.registerOpenOrder, BB.handle_user_socket_message, exMsgFill,
    BB.socket_loop, BB.processOrder, BB.execute_order, BB.BtOrder.execute,
    exOrderNEW, BB.mkBinanceOrder, exBoNEW, exData, BB.set_order_status,
    BB.getposition, BB.posLookup, BB.posSet, BB.OrderData.addbit,
    BB.copysign, BB.Position.update] at h2

/-! C2 -/

/-- Claim C2, code-bug exhibit.  In the program BOTH instant-fill scenarios
raise: submit of the market buy whose REST response is FILLED hits the
AttributeError at binance_broker.py:156 before the Completed tail, so no
order is returned and the ledger is untouched — from the flat prior state
and from the pre-existing 0.05-at-1000 position alike (first two
conjuncts), against the claim that submit returns a Filled order and
updates the ledger synchronously.  The order-construction prefix that DID
run (submitOrder, lines 131-153) produced exactly the order the claim
describes — Completed, executed 0.01, volume-weighted price 2000 (middle
conjuncts) — and the unreachable Completed tail (lines 158-163,
submit_completed_update) would have written the ledger only from a flat
prior position; applied to the pre-existing 0.05-at-1000 position it
mutates the discarded clone and leaves the ledger unchanged (last two
conjuncts). -/
theorem instant_fill_ledger_update_bug :
    BB.submit {} exData "BUY" BB.ExecType.Market (1/100) 0 exBoFILLED
      (Except.ok exTrades) = ({}, none) ∧
    BB.submit exStPrior exData "BUY" BB.ExecType.Market (1/100) 0 exBoFILLED
      (Except.ok exTrades) = (exStPrior, none) ∧
    (BB.submitOrder exData BB.ExecType.Market 0 exBoFILLED
      (Except.ok exTrades)).status = BB.OrdStatus.Completed ∧
    (BB.submitOrder exData BB.ExecType.Market 0 exBoFILLED
      (Except.ok exTrades)).executed = BB.ExecVal.num (1/100) ∧
    (BB.submitOrder exData BB.ExecType.Market 0 exBoFILLED
      (Except.ok exTrades)).price = 2000 ∧
    (BB.submit_completed_update exStPrior exData
      (BB.submitOrder exData BB.ExecType.Market 0 exBoFILLED
        (Except.ok exTrades))).positions = exStPrior.positions ∧
    (BB.submit_completed_update {} exData
      (BB.submitOrder exData BB.ExecType.Market 0 exBoFILLED
        (Except.ok exTrades))).positions =
      [("ETHUSDT", { size := 1/100, price := 2000 })] := by
  refine ⟨rfl, rfl, rfl, rfl, ?_, ?_, ?_⟩ <;>
    norm_num [BB.submitOrder, BB.submit_completed_update, BB.mkBinanceOrder,
      BB.getposition, BB.posLookup, BB.posSet, BB.Position.isTruthy,
      BB.Position.clone, exData, exBoFILLED, exTrades, exStPrior]

/-! C6 -/

/-- Claim C6: setting the margin mode is idempotent — calling setMarginMode
twice with the same mode never returns an error on the second call, because
the exchange's "no change needed" response (its payload contains
"code":-4046) is classified as success by the substring check of
ccxt_broker.py:77, whatever the initial mode was. -/
theorem setMarginMode_twice_ok (initial mode : String) :
    (CCXT.setMarginModeTwice initial mode).2 = Except.ok () := by
  have hc : CCXT.containsSubstr
      "\"code\":-4046,\"msg\":\"No need to change margin type.\""
      "\"code\":-4046" = true := by decide
  unfold CCXT.setMarginModeTwice CCXT.exchangeMarginType CCXT.setMarginType
  by_cases h : initial = mode <;> simp [h, hc]

/-! C10 -/

/-- Claim C10: get_available_balance and transfer_to_isolated_margin never
raise (their return types in this embedding are plain values because the
whole Python bodies are wrapped in try/except): on any underlying exchange
error get_available_balance returns the sentinel 0.0 — the same value it
returns for an account whose USDT availableBalance is genuinely zero — and
transfer_to_isolated_margin returns False, while a successful transfer
returns True. -/
theorem balance_transfer_swallow_errors (e : String) :
    CCXT.get_available_balance "future" (Except.error e) = some 0 ∧
    CCXT.get_available_balance "future" (Except.error e) =
      CCXT.get_available_balance "future"
        (Except.ok { assets := [{ asset := "USDT", availableBalance := 0 }] }) ∧
    CCXT.transfer_to_isolated_margin (Except.error e) = false ∧
    CCXT.transfer_to_isolated_margin (Except.ok ()) = true :=
  ⟨rfl, rfl, rfl, rfl⟩

/-! C8 -/

/-- Claim C8 counterexample: the claim says every Transport Gateway REST
call is retried on transient failures up to 3 attempts with a 2-second
delay.  Against an exchange that times out on the first attempt and would
succeed on the second, CCXTBroker.create_order performs exactly ONE attempt
and surfaces the transient error immediately — no retry, no delay — so the
claim is false for the place-order call. -/
theorem create_order_no_retry_counterexample :
    CCXT.create_order "BUY" envOrder = (Except.error "request timeout", 1) :=
  rfl

/-- Claim C8 as amended: no Transport Gateway REST call is retried and
none is delayed — each CCXTBroker operation wraps exactly one exchange
call (CCXTStore's `retries` parameter, default 3, is stored and never
read).  On an exchange failure, place order, cancel order, query order,
query position, query balance and set leverage surface the exception to
the caller immediately; set margin mode surfaces it unless the error text
contains "code":-4046, which is classified as success; the margin transfer
swallows the exception and reports False instead of propagating.  The only
bounded retry in the sources is the strategy helper get_position_info: up
to 3 attempts with a 2-second sleep after each failed non-final attempt,
all exceptions retried alike, the last one re-raised. -/
theorem no_gateway_retry_only_strategy_helper (side : String)
    (h : side = "BUY" ∨ side = "SELL") (env : Nat → Except String String)
    (envp : Nat → Except String (List CCXT.PosRec))
    (cst : CCXT.BrokerState) (oid ticker sym e a b c : String)
    (ps : List CCXT.PosRec) (spot : Except String CCXT.AccountResp)
    (hnc : CCXT.containsSubstr e "\"code\":-4046" = false) :
    CCXT.create_order side env = (env 0, 1) ∧
    CCXT.cancel_order cst oid (Except.error e) = Except.error e ∧
    CCXT.get_order (Except.error e) = Except.error e ∧
    CCXT.get_position "future" sym (Except.error e) = Except.error e ∧
    CCXT.get_account_balance "future" (Except.error e) spot =
      Except.error e ∧
    CCXT.setLeverage (Except.error e) = Except.error e ∧
    CCXT.setMarginType (Except.error e) = Except.error e ∧
    CCXT.transfer_to_isolated_margin (Except.error e) = false ∧
    (envp 0 = Except.error a → envp 1 = Except.ok ps →
      Strat.get_position_info envp ticker =
        (Except.ok (ps.find? (fun p => p.symbol = ticker.replace "/" "")),
          2, [2])) ∧
    (envp 0 = Except.error a → envp 1 = Except.error b →
      envp 2 = Except.error c →
      Strat.get_position_info envp ticker = (Except.error c, 3, [2, 2])) := by
  refine ⟨?_, rfl, rfl, rfl, rfl, rfl, ?_, rfl, ?_, ?_⟩
  · unfold CCXT.create_order
    rw [if_pos h]
  · simp [CCXT.setMarginType, hnc]
  · intro h0 h1
    unfold Strat.get_position_info
    rw [h0, h1]
  · intro h0 h1 h2
    unfold Strat.get_position_info
    rw [h0, h1, h2]

/-- Witness for the amended C8 theorem at concrete inputs: side "BUY", the
error text "request timeout" (which does not contain the -4046 marker), and
an exchange that fails once then succeeds. -/
theorem no_gateway_retry_only_strategy_helper_witness :
    CCXT.create_order "BUY" envOrder = (envOrder 0, 1) ∧
    CCXT.setMarginType (Except.error "request timeout") =
      Except.error "request timeout" ∧
    CCXT.transfer_to_isolated_margin (Except.error "request timeout") =
      false ∧
    Strat.get_position_info envPos "ETHUSDT" =
      (Except.ok (([exPosRec]).find?
        (fun p => p.symbol = ("ETHUSDT").replace "/" "")), 2, [2]) := by
  have H := no_gateway_retry_only_strategy_helper "BUY" (Or.inl rfl) envOrder
    envPos {} "42" "ETHUSDT" "ETH/USDT" "request timeout" "request timeout"
    "b" "c" [exPosRec] (Except.error "request timeout") (by decide)
  exact ⟨H.1, H.2.2.2.2.2.2.1, H.2.2.2.2.2.2.2.1, H.2.2.2.2.2.2.2.2.1 rfl rfl⟩

/-! C5 -/

/-- Claim C5 counterexample: cancel on an already-terminal order is NOT a
universal no-op success — for CCXTBroker.cancel_order (cited by the claim),
cancelling order "42" that is already closed/filled makes the exchange
reject the cancel (ccxt raises OrderNotFound for the terminal order), and
the except branch re-raises it, so the call returns an error rather than a
no-op success. -/
theorem cancel_terminal_ccxt_counterexample :
    CCXT.cancel_order
      { orders := [("42", { status := "closed" })], pending := [] } "42"
      (Except.error "binance OrderNotFound: Unknown order sent") =
      Except.error "binance OrderNotFound: Unknown order sent" :=
  rfl

/-- Claim C5 as amended: a cancel of an already-terminal order is a no-op
success only on the BinanceBroker path — BinanceBroker.cancel touches no
local state and the store swallows the exchange's already-terminal
rejection — whereas CCXTBroker.cancel_order propagates any exchange
exception (including the terminal-order rejection) to the caller as an
error. -/
theorem cancel_terminal_paths (st : BB.BrokerState) (o : BB.BtOrder)
    (h : o.status = BB.OrdStatus.Completed) (cst : CCXT.BrokerState)
    (oid e : String) :
    BB.cancel st o BB.CancelResp.alreadyTerminal = (st, Except.ok ()) ∧
    CCXT.cancel_order cst oid (Except.error e) = Except.error e :=
  ⟨rfl, rfl⟩

/-- Witness for the amended C5 theorem: a concrete Completed order (an
instantly filled market buy) and a concrete CCXT state. -/
theorem cancel_terminal_paths_witness :
    BB.cancel {} (BB.mkBinanceOrder exData BB.ExecType.Market exBoFILLED)
      BB.CancelResp.alreadyTerminal = ({}, Except.ok ()) ∧
    CCXT.cancel_order {} "42" (Except.error "err") = Except.error "err" :=
  cancel_terminal_paths {} (BB.mkBinanceOrder exData BB.ExecType.Market exBoFILLED)
    rfl {} "42" "err"

/-! C3 -/

/-- Helper: looking up a key right after setting it returns the new value
(Python dict assignment followed by lookup). -/
theorem posLookup_posSet (ps : List (String × BB.Position)) (k : String)
    (v : BB.Position) : BB.posLookup (BB.posSet ps k v) k = some v := by
  induction ps with
  | nil => simp [BB.posSet, BB.posLookup]
  | cons pr rest ih =>
    obtain ⟨k1, v1⟩ := pr
    simp only [BB.posSet]
    by_cases h : k1 = k
    · rw [if_pos h]
      simp [BB.posLookup]
    · rw [if_neg h]
      simpa [BB.posLookup, List.find?_cons_of_neg, h] using ih

/-- Helper: a fill in the same direction as the existing exposure blends
the average price size-weightedly (backtrader Position.update). -/
theorem update_same_direction (pos : BB.Position) (σ q : ℚ)
    (h : 0 < pos.size * σ) :
    (pos.update σ q).size = pos.size + σ ∧
    (pos.update σ q).price =
      (pos.price * pos.size + σ * q) / (pos.size + σ) := by
  rcases mul_pos_iff.mp h with ⟨hs, hσ⟩ | ⟨hs, hσ⟩
  · have h1 : ¬(pos.size + σ = 0) := by linarith
    have h2 : ¬(pos.size = 0) := by linarith
    simp only [BB.Position.update]
    rw [if_neg h1, if_neg h2, if_pos hs, if_pos hσ]
    exact ⟨rfl, rfl⟩
  · have h1 : ¬(pos.size + σ = 0) := by linarith
    have h2 : ¬(pos.size = 0) := by linarith
    have h3 : ¬(0 < pos.size) := by linarith
    have h4 : σ < 0 := hσ
    simp only [BB.Position.update]
    rw [if_neg h1, if_neg h2, if_neg h3, if_pos h4]
    exact ⟨rfl, rfl⟩

/-- Helper: a fill that reduces the existing exposure without flipping its
sign leaves the average price unchanged while shrinking the absolute size
(backtrader Position.update). -/
theorem update_reduce_keeps_price (pos : BB.Position) (σ q : ℚ)
    (h : pos.size * σ < 0) (h2 : |σ| < |pos.size|) :
    (pos.update σ q).price = pos.price ∧
    |(pos.update σ q).size| = |pos.size| - |σ| := by
  rcases mul_neg_iff.mp h with ⟨hs, hσ⟩ | ⟨hs, hσ⟩
  · -- long position, sell fill: 0 < size, σ < 0
    rw [abs_of_pos hs, abs_of_neg hσ] at h2
    have h1 : ¬(pos.size + σ = 0) := by linarith
    have hz : ¬(pos.size = 0) := by linarith
    have hn : ¬(0 < σ) := by linarith
    have hp : 0 < pos.size + σ := by linarith
    simp only [BB.Position.update]
    rw [if_neg h1, if_neg hz, if_pos hs, if_neg hn, if_pos hp]
    refine ⟨rfl, ?_⟩
    dsimp only
    rw [abs_of_pos hp, abs_of_pos hs, abs_of_neg hσ]
    ring
  · -- short position, buy fill: size < 0, 0 < σ
    rw [abs_of_pos hσ, abs_of_neg hs] at h2
    have h1 : ¬(pos.size + σ = 0) := by linarith
    have hz : ¬(pos.size = 0) := by linarith
    have h3 : ¬(0 < pos.size) := by linarith
    have hn : ¬(σ < 0) := by linarith
    have hp : pos.size + σ < 0 := by linarith
    simp only [BB.Position.update]
    rw [if_neg h1, if_neg hz, if_neg h3, if_neg hn, if_pos hp]
    refine ⟨rfl, ?_⟩
    dsimp only
    rw [abs_of_neg hp, abs_of_neg hs, abs_of_pos hσ]
    ring

/-- Claim C3: a fill applied through _execute_order updates the ledger with
the executed quantity signed by the order's side — copysign(executed_size,
order.size) is +qty for a buy and -qty for a sell, since BinanceOrder
carries origQty negated for sells — and the resulting Position evolves by
the blend/flip rule: a same-direction fill blends the average entry price
size-weightedly, while a reducing fill leaves the price unchanged as the
absolute size shrinks. -/
theorem fill_sign_and_blend
    (st : BB.BrokerState) (data : BB.DataFeed) (et : BB.ExecType)
    (bo : BB.BinanceOrderDict) (dt e p v c : ℚ)
    (hq : 0 < bo.origQty) (he : 0 < e) (hnew : bo.status = "NEW") :
    (∃ st1 o1,
      BB.execute_order st (BB.mkBinanceOrder data et bo) dt e p v c =
        some (st1, o1) ∧
      BB.posLookup st1.positions data.name =
        some (((BB.getposition st.positions data.name).2).update
          (if bo.side = "BUY" then e else -e) p)) ∧
    (∀ (pos : BB.Position) (σ q : ℚ), 0 < pos.size * σ →
      (pos.update σ q).size = pos.size + σ ∧
      (pos.update σ q).price =
        (pos.price * pos.size + σ * q) / (pos.size + σ)) ∧
    (∀ (pos : BB.Position) (σ q : ℚ), pos.size * σ < 0 → |σ| < |pos.size| →
      (pos.update σ q).price = pos.price ∧
      |(pos.update σ q).size| = |pos.size| - |σ|) := by
  refine ⟨?_, update_same_direction, update_reduce_keeps_price⟩
  have hsize : (BB.mkBinanceOrder data et bo).size =
      if bo.side = "BUY" then bo.origQty else -bo.origQty := by
    by_cases hs : bo.side = "BUY" <;> simp [BB.mkBinanceOrder, hs]
  have hexec : (BB.mkBinanceOrder data et bo).executed =
      BB.ExecVal.odata { remsize := (BB.mkBinanceOrder data et bo).size } := by
    by_cases hs : bo.side = "BUY" <;>
      simp [BB.mkBinanceOrder, hs, hnew]
  have hcs : BB.copysign e (BB.mkBinanceOrder data et bo).size =
      if bo.side = "BUY" then e else -e := by
    rw [hsize]
    by_cases hs : bo.side = "BUY"
    · rw [if_pos hs, if_pos hs, BB.copysign, if_neg (by linarith), abs_of_pos he]
    · rw [if_neg hs, if_neg hs, BB.copysign, if_pos (by linarith),
        abs_of_pos he]
  unfold BB.execute_order BB.BtOrder.execute
  rw [if_neg (by linarith : ¬ e = 0), hexec]
  dsimp only
  rw [hcs]
  exact ⟨_, _, rfl, posLookup_posSet _ _ _⟩

/-- Witness for the C3 theorem at a concrete buy order and fill: the NEW
limit buy of 0.01 receiving a fill of 0.01 at 2000 against the empty
broker. -/
theorem fill_sign_and_blend_witness :
    ∃ st1 o1,
      BB.execute_order {} (BB.mkBinanceOrder exData BB.ExecType.Limit exBoNEW)
          1 (1/100) 2000 20 0 = some (st1, o1) ∧
      BB.posLookup st1.positions exData.name =
        some (((BB.getposition ({} : BB.BrokerState).positions
            exData.name).2).update
          (if exBoNEW.side = "BUY" then (1/100 : ℚ) else -(1/100)) 2000) :=
  (fill_sign_and_blend {} exData BB.ExecType.Limit exBoNEW 1 (1/100) 2000 20 0
    (by norm_num [exBoNEW]) (by norm_num) rfl).1

/-! C4 -/

/-- Helper: sequential fill application accumulates executedQty into the
cumulative size and executedQty × executedPrice into the notional (the
product size × price), starting from any nonnegative executed record. -/
theorem applyFills_invariant :
    ∀ (fills : List BB.Fill) (o : BB.BtOrder) (d : BB.OrderData),
    o.executed = BB.ExecVal.odata d → 0 ≤ d.size →
    (∀ f ∈ fills, 0 < f.qty) →
    ∃ o1 d1, BB.applyFills o fills = some o1 ∧
      o1.executed = BB.ExecVal.odata d1 ∧
      d1.size = d.size + (fills.map (fun f => f.qty)).sum ∧
      d1.size * d1.price =
        d.size * d.price + (fills.map (fun f => f.qty * f.price)).sum := by
  intro fills
  induction fills with
  | nil =>
    intro o d hex hsz hq
    exact ⟨o, d, rfl, hex, by simp, by simp⟩
  | cons f fs ih =>
    intro o d hex hsz hq
    have hfq : 0 < f.qty := hq f (by simp)
    have hne : ¬(f.qty = 0) := by linarith
    have hdq : ¬(d.size + f.qty = 0) := by linarith
    unfold BB.applyFills
    rw [BB.BtOrder.execute, if_neg hne, hex]
    dsimp only
    set d1 : BB.OrderData :=
      { (d.addbit f.dt f.qty f.price 0 f.value f.comm 0 0 0 0 0 0) with
        margin := some 0 } with hd1
    have hd1size : d1.size = d.size + f.qty := rfl
    have hd1price : d1.price =
      (d.size * d.price + f.qty * f.price) / (d.size + f.qty) := rfl
    obtain ⟨o1, d2, hrun, hex2, hsz2, hpr2⟩ :=
      ih { o with executed := BB.ExecVal.odata d1 } d1 rfl
        (by rw [hd1size]; linarith)
        (fun x hx => hq x (by simp [hx]))
    refine ⟨o1, d2, hrun, hex2, ?_, ?_⟩
    · rw [hsz2, hd1size]
      simp
      ring
    · rw [hpr2, hd1size, hd1price]
      rw [mul_div_cancel₀ _ hdq]
      simp
      ring

/-- Claim C4: for an order constructed from a NEW response and any sequence
of positive-size fills, each fill adds executedQty to the cumulative
executed size and executedQty × executedPrice to the running notional, and
the final average executed price equals total notional divided by
cumulative size; moreover, running the stream handler on the concrete
scenario — two partial fills of 0.003 at 2000 and 0.007 at 2010 followed by
a final FILLED report — leaves open_orders empty and the notified order
Completed with cumulative size 0.01 and average price 2007. -/
theorem avg_price_is_notional_over_size :
    (∀ (data : BB.DataFeed) (et : BB.ExecType) (bo : BB.BinanceOrderDict)
      (fills : List BB.Fill),
      bo.status = "NEW" → (∀ f ∈ fills, 0 < f.qty) →
      ∃ o1 d1, BB.applyFills (BB.mkBinanceOrder data et bo) fills = some o1 ∧
        o1.executed = BB.ExecVal.odata d1 ∧
        d1.size = (fills.map (fun f => f.qty)).sum ∧
        d1.price = (fills.map (fun f => f.qty * f.price)).sum /
          (fills.map (fun f => f.qty)).sum) ∧
    (exChain.map (fun s => s.open_orders) = some [] ∧
     (exChain.bind (fun s => s.notifs.getLast?)).map
         (fun o => (o.status, BB.ExecVal.sizePrice o.executed)) =
       some (BB.OrdStatus.Completed, some (1/100, 2007))) := by
  constructor
  · intro data et bo fills hnew hq
    have hexec : (BB.mkBinanceOrder data et bo).executed =
        BB.ExecVal.odata { remsize := (BB.mkBinanceOrder data et bo).size } := by
      by_cases hs : bo.side = "BUY" <;> simp [BB.mkBinanceOrder, hs, hnew]
    obtain ⟨o1, d1, hrun, hex1, hsz1, hpr1⟩ :=
      applyFills_invariant fills (BB.mkBinanceOrder data et bo)
        { remsize := (BB.mkBinanceOrder data et bo).size } hexec le_rfl hq
    refine ⟨o1, d1, hrun, hex1, by simpa using hsz1, ?_⟩
    simp only at hsz1 hpr1
    by_cases hz : (fills.map (fun f => f.qty)).sum = 0
    · -- a zero total with positive fill sizes forces the empty fill list
      rcases fills with _ | ⟨f, fs⟩
      · simp only [BB.applyFills] at hrun
        cases hrun
        rw [hex1] at hexec
        cases hexec
        simp [hz]
      · exfalso
        have h1 : 0 < f.qty := hq f (by simp)
        have h2 : ∀ x ∈ fs.map (fun f => f.qty), 0 ≤ x := by
          intro x hx
          obtain ⟨g, hg, rfl⟩ := List.mem_map.mp hx
          exact le_of_lt (hq g (by simp [hg]))
        have h3 : 0 ≤ (fs.map (fun f => f.qty)).sum := List.sum_nonneg h2
        simp only [List.map_cons, List.sum_cons] at hz
        linarith
    · rw [eq_div_iff (by simpa using hz)]
      rw [zero_add] at hsz1
      rw [← hsz1, mul_comm]
      simpa using hpr1
  · constructor
    · simp [exChain, BB.handle_user_socket_message, exMsgPF1, exMsgPF2,
        exMsgF3, BB.socket_loop, BB.processOrder, BB.execute_order,
        BB.BtOrder.execute, exOrderNEW, BB.mkBinanceOrder, exBoNEW, exData,
        BB.set_order_status, BB.getposition, BB.posLookup, BB.posSet,
        BB.OrderData.addbit, BB.copysign, BB.Position.update]
    · simp [exChain, BB.handle_user_socket_message, exMsgPF1, exMsgPF2,
        exMsgF3, BB.socket_loop, BB.processOrder, BB.execute_order,
        BB.BtOrder.execute, exOrderNEW, BB.mkBinanceOrder, exBoNEW, exData,
        BB.set_order_status, BB.getposition, BB.posLookup, BB.posSet,
        BB.OrderData.addbit, BB.copysign, BB.Position.update,
        BB.ExecVal.sizePrice]
      norm_num

/-- Witness for the C4 theorem at the concrete two-fill scenario: 0.003 at
2000 and 0.007 at 2010 give cumulative size 0.01 and average 2007. -/
theorem avg_price_is_notional_over_size_witness :
    ∃ o1 d1,
      BB.applyFills (BB.mkBinanceOrder exData BB.ExecType.Limit exBoNEW)
        exFills = some o1 ∧
      o1.executed = BB.ExecVal.odata d1 ∧
      d1.size = (exFills.map (fun f => f.qty)).sum ∧
      d1.price = (exFills.map (fun f => f.qty * f.price)).sum /
        (exFills.map (fun f => f.qty)).sum :=
  avg_price_is_notional_over_size.1 exData BB.ExecType.Limit exBoNEW exFills
    rfl (by intro f hf; simp [exFills] at hf; rcases hf with rfl | rfl <;> norm_num)

/-! C9 -/

/-- Helper: appending a cell leaves reads of existing cells unchanged. -/
theorem heap_read_append_lt (h : Alias.Heap) (x : BB.Position) (r : Nat)
    (hr : r < h.cells.length) :
    Alias.Heap.read ⟨h.cells ++ [x]⟩ r = h.read r := by
  simp [Alias.Heap.read, List.getD_eq_getElem?_getD, List.getElem?_append, hr]

/-- Helper: reading the freshly appended cell returns the stored object. -/
theorem heap_read_concat (h : Alias.Heap) (x : BB.Position) :
    Alias.Heap.read ⟨h.cells ++ [x]⟩ h.cells.length = x := by
  simp [Alias.Heap.read, List.getD_eq_getElem?_getD,
    List.getElem?_concat_length]

/-- Helper: writing one cell leaves reads of other cells unchanged. -/
theorem heap_read_write_ne (h : Alias.Heap) (r j : Nat) (v : BB.Position)
    (hne : r ≠ j) : (h.write r v).read j = h.read j := by
  simp [Alias.Heap.read, Alias.Heap.write, List.getD_eq_getElem?_getD,
    List.getElem?_set_ne hne]

/-- Helper: reading a cell right after writing it returns the new value. -/
theorem heap_read_write_self (h : Alias.Heap) (r : Nat) (v : BB.Position)
    (hr : r < h.cells.length) : (h.write r v).read r = v := by
  simp [Alias.Heap.read, Alias.Heap.write, List.getD_eq_getElem?_getD,
    List.getElem?_set_self hr]

/-- Claim C9: in the object-identity model of the positions defaultdict,
getposition with the default clone=True returns a fresh copy of the stored
Position — mutating the returned object (pos.update with any arguments)
leaves the ledger's value for the symbol unchanged — while the fill path of
_execute_order, which requests the un-cloned object (clone=False), mutates
the ledger entry to exactly Position.update of the stored value. -/
theorem getposition_clone_protects_ledger (s : Alias.St) (k : String)
    (ms mp q p : ℚ) (hwf : Alias.Wf s) :
    Alias.ledger (Alias.updateRef (Alias.getposition s k true).1
        (Alias.getposition s k true).2 ms mp) k =
      Alias.ledger (Alias.getposition s k true).1 k ∧
    (Alias.getposition s k true).1.heap.read (Alias.getposition s k true).2 =
      ((Alias.access s k).1.heap.read (Alias.access s k).2).clone ∧
    Alias.ledger (Alias.execute_order_pos s k q p) k =
      some (((Alias.access s k).1.heap.read (Alias.access s k).2).update q p) := by
  rcases hfind : (s.posmap.find? (fun pr => pr.1 = k)) with _ | pr
  · -- key absent: the defaultdict allocates a fresh default Position
    have hacc : Alias.access s k =
        ({ heap := ⟨s.heap.cells ++ [{ size := 0, price := 0 }]⟩,
           posmap := s.posmap ++ [(k, s.heap.cells.length)] },
          s.heap.cells.length) := by
      unfold Alias.access Alias.Heap.alloc
      rw [hfind]
      rfl
    have hfind2 : ((s.posmap ++ [(k, s.heap.cells.length)]).find?
        (fun pr => pr.1 = k)) = some (k, s.heap.cells.length) := by
      rw [List.find?_append, hfind]
      simp
    have hread0 : Alias.Heap.read ⟨s.heap.cells ++ [{ size := 0, price := 0 }]⟩
        s.heap.cells.length = { size := 0, price := 0 } :=
      heap_read_concat s.heap { size := 0, price := 0 }
    have hgp : Alias.getposition s k true =
        ({ heap := ⟨(s.heap.cells ++ [{ size := 0, price := 0 }]) ++
             [BB.Position.clone { size := 0, price := 0 }]⟩,
           posmap := s.posmap ++ [(k, s.heap.cells.length)] },
          (s.heap.cells ++ [({ size := 0, price := 0 } : BB.Position)]).length) := by
      unfold Alias.getposition
      rw [hacc]
      dsimp only
      rw [if_pos rfl, hread0]
      unfold Alias.Heap.alloc
      rfl
    have hgpf : Alias.getposition s k false =
        ({ heap := ⟨s.heap.cells ++ [{ size := 0, price := 0 }]⟩,
           posmap := s.posmap ++ [(k, s.heap.cells.length)] },
          s.heap.cells.length) := by
      unfold Alias.getposition
      rw [hacc]
      rfl
    refine ⟨?_, ?_, ?_⟩
    · -- frame: mutating the fresh clone cell leaves the ledger cell alone
      rw [hgp]
      simp only [Alias.ledger, Alias.updateRef]
      rw [hfind2]
      simp only [Option.map_some']
      rw [heap_read_write_ne _ _ _ _ (by simp)]
    · rw [hgp, hacc]
      dsimp only
      rw [hread0]
      exact heap_read_concat ⟨s.heap.cells ++ [{ size := 0, price := 0 }]⟩ _
    · rw [hacc]
      unfold Alias.execute_order_pos
      rw [hgpf]
      dsimp only
      simp only [Alias.ledger, Alias.updateRef]
      rw [hfind2]
      simp only [Option.map_some']
      rw [heap_read_write_self _ _ _ (by simp)]
  · -- key present: the stored reference is valid by well-formedness
    have hr0 : pr.2 < s.heap.cells.length :=
      hwf pr (List.mem_of_find?_eq_some hfind)
    have hacc : Alias.access s k = (s, pr.2) := by
      unfold Alias.access
      rw [hfind]
      rfl
    have hgp : Alias.getposition s k true =
        ({ heap := ⟨s.heap.cells ++ [(s.heap.read pr.2).clone]⟩,
           posmap := s.posmap }, s.heap.cells.length) := by
      unfold Alias.getposition
      rw [hacc]
      dsimp only
      rw [if_pos rfl]
      unfold Alias.Heap.alloc
      rfl
    have hgpf : Alias.getposition s k false = (s, pr.2) := by
      unfold Alias.getposition
      rw [hacc]
      rfl
    refine ⟨?_, ?_, ?_⟩
    · rw [hgp]
      simp only [Alias.ledger, Alias.updateRef]
      rw [hfind]
      simp only [Option.map_some']
      rw [heap_read_write_ne _ _ _ _ (by omega)]
    · rw [hgp, hacc]
      dsimp only
      exact heap_read_concat s.heap _
    · rw [hacc]
      unfold Alias.execute_order_pos
      rw [hgpf]
      dsimp only
      simp only [Alias.ledger, Alias.updateRef]
      rw [hfind]
      simp only [Option.map_some']
      rw [heap_read_write_self _ _ _ hr0]

/-- Witness for the C9 theorem at the concrete one-entry state: an existing
0.05-at-1000 position object for ETHUSDT. -/
theorem getposition_clone_protects_ledger_witness :
    Alias.ledger (Alias.updateRef (Alias.getposition exAliasSt "ETHUSDT" true).1
        (Alias.getposition exAliasSt "ETHUSDT" true).2 (1/100) 2000) "ETHUSDT" =
      Alias.ledger (Alias.getposition exAliasSt "ETHUSDT" true).1 "ETHUSDT" ∧
    (Alias.getposition exAliasSt "ETHUSDT" true).1.heap.read
        (Alias.getposition exAliasSt "ETHUSDT" true).2 =
      ((Alias.access exAliasSt "ETHUSDT").1.heap.read
        (Alias.access exAliasSt "ETHUSDT").2).clone ∧
    Alias.ledger (Alias.execute_order_pos exAliasSt "ETHUSDT" (1/100) 2000)
        "ETHUSDT" =
      some (((Alias.access exAliasSt "ETHUSDT").1.heap.read
        (Alias.access exAliasSt "ETHUSDT").2).update (1/100) 2000) :=
  getposition_clone_protects_ledger exAliasSt "ETHUSDT" (1/100) 2000 (1/100)
    2000 (by intro pr hp; simp [exAliasSt] at hp; subst hp; simp [exAliasSt])
